import Mathlib

/-!
# Verification of the realtime JS console core (src/main.js)

A shallow embedding of the host page's console pipeline and of the
sandboxed-iframe run lifecycle, with theorems settling the frozen claims
about it.

The embedding follows `src/main.js`:
* `format`, `partText`, `renderText` model `format` and the
  `parts.map(format).join(' ')` line composition of `printLine`;
* `hostHandle` models the `window` `message` listener (lines 55-59);
* `Behavior`, `rawExec`, `sandboxOnRun` model the sandbox boot script's
  handling of a run request (lines 25-34);
* a labelled transition system (`St`, `Act`, `step`) models the event-loop
  interleavings of `run()` (lines 61-73), `createSandbox`, `clearConsole`,
  message delivery and iframe load, following HTML event-loop semantics:
  a `postMessage` task already queued at the receiver survives the
  destruction of its source browsing context, while code inside a removed
  iframe (timers, promise continuations) never runs again.
-/

namespace RTConsole

/-- JavaScript-like values as they can appear in `postMessage` payloads and
console arguments.  `cyclicObj` stands for an object whose JSON
serialization throws (a cyclic structure); its `String(...)` coercion is
the usual `[object Object]`. -/
inductive JSVal : Type where
  | str : String → JSVal
  | num : Int → JSVal
  | bool : Bool → JSVal
  | null : JSVal
  | undefined : JSVal
  | arr : List JSVal → JSVal
  | obj : List (String × JSVal) → JSVal
  | cyclicObj : JSVal

/-- Outcome of `JSON.stringify`: a string, the absent value `undefined`
(for `undefined` itself), or a thrown `TypeError` (cyclic values). -/
inductive JOut : Type where
  | ok : String → JOut
  | absent : JOut
  | fail : JOut
deriving DecidableEq

/-- JSON quoting of a string (the escapes needed here: quote and backslash). -/
def jsonQuote (s : String) : String :=
  "\x22" ++ String.join (s.toList.map (fun c =>
    if c = '\x22' then "\\\x22"
    else if c = '\\' then "\\\\"
    else c.toString)) ++ "\x22"

mutual

/-- Shallow model of `JSON.stringify`. -/
def jsonStringify : JSVal → JOut
  | .str s => .ok (jsonQuote s)
  | .num n => .ok (toString n)
  | .bool b => .ok (if b then "true" else "false")
  | .null => .ok "null"
  | .undefined => .absent
  | .arr l =>
      match jsonElems l with
      | some es => .ok ("[" ++ String.intercalate "," es ++ "]")
      | none => .fail
  | .obj fs =>
      match jsonFields fs with
      | some es => .ok ("\x7b" ++ String.intercalate "," es ++ "\x7d")
      | none => .fail
  | .cyclicObj => .fail

/-- Array elements: `undefined` serializes as `null`; a throwing element
makes the whole serialization throw. -/
def jsonElems : List JSVal → Option (List String)
  | [] => some []
  | v :: vs =>
      match jsonStringify v, jsonElems vs with
      | .fail, _ => none
      | _, none => none
      | .absent, some es => some ("null" :: es)
      | .ok s, some es => some (s :: es)

/-- Object fields: fields whose value serializes to `undefined` are skipped. -/
def jsonFields : List (String × JSVal) → Option (List String)
  | [] => some []
  | (k, v) :: fs =>
      match jsonStringify v, jsonFields fs with
      | .fail, _ => none
      | _, none => none
      | .absent, some es => some es
      | .ok s, some es => some ((jsonQuote k ++ ":" ++ s) :: es)

end

mutual

/-- Shallow model of JavaScript `String(v)` coercion. -/
def strCoerce : JSVal → String
  | .str s => s
  | .num n => toString n
  | .bool b => if b then "true" else "false"
  | .null => "null"
  | .undefined => "undefined"
  | .arr l => String.intercalate "," (coerceElems l)
  | .obj _ => "[object Object]"
  | .cyclicObj => "[object Object]"

/-- Coercion of array elements by `Array.prototype.toString`, rendering
`null` and `undefined` as empty. -/
def coerceElems : List JSVal → List String
  | [] => []
  | .null :: vs => "" :: coerceElems vs
  | .undefined :: vs => "" :: coerceElems vs
  | v :: vs => strCoerce v :: coerceElems vs

end

/-- JavaScript truthiness. -/
def truthy : JSVal → Bool
  | .str s => s != ""
  | .num n => n != 0
  | .bool b => b
  | .null => false
  | .undefined => false
  | .arr _ => true
  | .obj _ => true
  | .cyclicObj => true

/-- Property access `v[k]`, yielding `undefined` on non-objects and missing
keys (only used after a truthiness guard, as in the source). -/
def getProp (v : JSVal) (k : String) : JSVal :=
  match v with
  | .obj fs =>
      match fs.lookup k with
      | some w => w
      | none => .undefined
  | _ => .undefined

/-- The iterable protocol used by spread syntax: arrays iterate their
elements, strings iterate their characters, anything else throws a
`TypeError` (`none`). -/
def spreadArgs : JSVal → Option (List JSVal)
  | .arr l => some l
  | .str s => some (s.toList.map (fun c => JSVal.str c.toString))
  | _ => none

/-- Model of `format` (main.js lines 49-52): a string renders verbatim; otherwise
`JSON.stringify`, falling back to `String(v)` if serialization throws.
Returns `none` when `JSON.stringify` returns the absent value. -/
def format : JSVal → Option String
  | .str s => some s
  | v =>
      match jsonStringify v with
      | .ok s => some s
      | .absent => none
      | .fail => some (strCoerce v)

/-- One argument's contribution to the line text: `Array.prototype.join`
renders the absent value as the empty string. -/
def partText (v : JSVal) : String := (format v).getD ""

/-- Line text composition `parts.map(format).join(' ')` from `printLine` (main.js lines 41-47). -/
def renderText (parts : List JSVal) : String :=
  String.intercalate " " (parts.map partText)

/-- One rendered console line: CSS kind tag and text. -/
structure Line where
  kind : String
  text : String
deriving DecidableEq

/-- The host `window` `message` listener (main.js lines 55-59):

```
const data = e.data;
if (!data || !data.__fromSandbox) return;
printLine(data.type || 'log', ...(data.args || []));
```

Result: `.ok none` when the message is silently ignored, `.ok (some l)`
when one line `l` is appended, `.error _` when the handler itself throws
(spreading a non-iterable `args`). -/
def hostHandle (data : JSVal) : Except String (Option Line) :=
  if !truthy data then .ok none
  else if !truthy (getProp data "__fromSandbox") then .ok none
  else
    let ty := getProp data "type"
    let kindText := if truthy ty then strCoerce ty else "log"
    let argsV := getProp data "args"
    let argsV' := if truthy argsV then argsV else JSVal.arr []
    match spreadArgs argsV' with
    | none => .error "TypeError: spread argument is not iterable"
    | some parts => .ok (some ⟨kindText, renderText parts⟩)

/-! ## The sandbox side (boot script built in `createSandbox`, lines 25-34) -/

/-- The four console channels wrapped by the boot script.  The sandbox's
`send` is only ever called with one of these four type tags (the wrapped
console methods and the two error hooks, which send `error`). -/
inductive EKind : Type where
  | log | info | warn | error
deriving DecidableEq

/-- The type tag string the sandbox puts in its `Output` messages. -/
def EKind.tag : EKind → String
  | .log => "log"
  | .info => "info"
  | .warn => "warn"
  | .error => "error"

/-- One `send(type, args)` call from inside the sandbox. -/
abbrev Emit := EKind × List JSVal

/-- A thrown JavaScript `Error` value: `name`, `message` and `stack`. -/
structure JSError where
  name : String
  message : String
  stack : String
deriving DecidableEq

/-- Model of `String(err && err.stack || err)` from the sandbox's catch block: the
stack when it is a non-empty string, otherwise the `Error` coercion
`name: message`. -/
def errText (e : JSError) : String :=
  if e.stack ≠ "" then e.stack else e.name ++ ": " ++ e.message

/-- Observable behavior of one execution of the submitted code string by
`new Function(data.code)()`: the console-interceptor sends made during the
synchronous call, the exception terminating it (if any), and the sends its
asynchronous continuations (timers, the `unhandledrejection` hook) make
from later tasks, in order.  The empty code string has the all-empty
behavior. -/
structure Behavior where
  syncEmits : List Emit
  syncThrow : Option JSError
  asyncEmits : List Emit

/-- The empty code string: `new Function('')()` emits nothing, throws
nothing, schedules nothing. -/
def emptyBehavior : Behavior := ⟨[], none, []⟩

/-- Raw result of `new Function(data.code)()`: messages sent while it ran,
plus the exception escaping it, if any. -/
def rawExec (b : Behavior) : List Emit × Option JSError :=
  (b.syncEmits, b.syncThrow)

/-- The sandbox message listener's handling of a valid `RunRequest`
(the `try { ... f(); } catch (err) { send('error', [...]); }` block):
first component = all messages sent during the handling, second =
exception escaping the handler. -/
def sandboxOnRun (b : Behavior) : List Emit × Option JSError :=
  match rawExec b with
  | (ms, none) => (ms, none)
  | (ms, some err) => (ms ++ [(EKind.error, [JSVal.str (errText err)])], none)

/-- The `postMessage` payload of an `Output` message:
`{ __fromSandbox: true, type, args }`. -/
def outMsgData (kind : String) (args : List JSVal) : JSVal :=
  .obj [("__fromSandbox", .bool true), ("type", .str kind), ("args", .arr args)]

/-- The display line an `Output` message produces at the host. -/
def emitLine (m : Emit) : Line := ⟨m.1.tag, renderText m.2⟩

/-- Display lines of a run's synchronous console output. -/
def syncLines (b : Behavior) : List Line := b.syncEmits.map emitLine

/-! ## The run lifecycle as a labelled transition system

State of the host page plus the live sandbox contexts.  Display lines and
queued `Output` messages carry a ghost source-context id (the host code
itself never reads it — the real listener has no origin check). -/

/-- One sandbox iframe context. -/
structure Ctx where
  cid : Nat
  loaded : Bool
  ran : Nat
  pendingAsync : List Emit

/-- Global state: host document, the module-level `iframe` variable, task
queues, and the armed send paths of `run()`. -/
structure St where
  display : List (Nat × Line)
  current : Option Nat
  attached : List Nat
  nextId : Nat
  ctxs : List Ctx
  timers : Nat
  loadArmed : List Nat
  runMsgs : List (Nat × Behavior)
  outMsgs : List (Nat × Emit)
  editor : Behavior
  sent : List Nat

/-- Initial state: empty display, no iframe, empty editor. -/
def init : St := ⟨[], none, [], 0, [], 0, [], [], [], emptyBehavior, []⟩

/-- Ids of the live contexts. -/
def aliveIds (s : St) : List Nat := s.ctxs.map Ctx.cid

/-- Look up a live context by id. -/
def findCtx (s : St) (c : Nat) : Option Ctx :=
  s.ctxs.find? (fun k => k.cid == c)

/-- Ghost observer: how many times context `c` has executed a RunRequest. -/
def ranOf (s : St) (c : Nat) : Nat :=
  match findCtx s c with
  | some k => k.ran
  | none => 0

/-- Mark context `c` loaded (its boot script has run). -/
def setLoaded (c : Nat) (l : List Ctx) : List Ctx :=
  l.map (fun k => if k.cid == c then { k with loaded := true } else k)

/-- Context `c` executes the request with payload `b`: bump its run
counter and schedule the behavior's asynchronous sends. -/
def bumpRan (c : Nat) (b : Behavior) (l : List Ctx) : List Ctx :=
  l.map (fun k =>
    if k.cid == c then
      { k with ran := k.ran + 1, pendingAsync := k.pendingAsync ++ b.asyncEmits }
    else k)

/-- Drop the head of context `c`'s pending asynchronous sends. -/
def popAsync (c : Nat) (l : List Ctx) : List Ctx :=
  l.map (fun k => if k.cid == c then { k with pendingAsync := k.pendingAsync.tail } else k)

/-- The `send` closure of `run()`:
`() => iframe && iframe.contentWindow && iframe.contentWindow.postMessage({ __runCode: true, code: editor.value }, '*')`.
It reads the module-level `iframe` variable and the editor at fire time
(`contentWindow` is non-null for the attached current iframe). -/
def doSend (s : St) : St :=
  match s.current with
  | none => s
  | some c => { s with runMsgs := s.runMsgs ++ [(c, s.editor)], sent := s.sent ++ [c] }

/-- Model of `clearConsole()`: `consoleEl.textContent = ''`. -/
def clearStep (s : St) : St := { s with display := [] }

/-- Model of `createSandbox()` (lines 25-34): remove the previous iframe from the
document if present — destroying its browsing context, so its pending
tasks (in-flight RunRequests to it, scheduled timers and continuations)
are discarded and its load event can no longer fire — then create, attach
and point `iframe` at a fresh sandboxed iframe. -/
def createStep (s : St) : St :=
  let s' :=
    match s.current with
    | some c =>
        if c ∈ s.attached then
          { s with attached := s.attached.erase c,
                   ctxs := s.ctxs.filter (fun k => k.cid != c),
                   runMsgs := s.runMsgs.filter (fun m => m.1 != c),
                   loadArmed := s.loadArmed.erase c }
        else s
    | none => s
  { s' with current := some s'.nextId,
            attached := s'.attached ++ [s'.nextId],
            ctxs := s'.ctxs ++ [⟨s'.nextId, false, 0, []⟩],
            nextId := s'.nextId + 1 }

/-- The send-arming tail of `run()`: `if (iframe.contentWindow)` holds
right after `appendChild`, so the next-tick timer is always armed; then
the once load listener is registered on the new iframe. -/
def armStep (s : St) : St :=
  let s' := { s with timers := s.timers + 1 }
  match s.current with
  | some c => { s' with loadArmed := s'.loadArmed ++ [c] }
  | none => s'

/-- Model of `run()` (lines 61-73) with the editor holding code of behavior `b`:
clear the console, build a fresh sandbox, arm the timer send and the
load-event send. -/
def runStep (b : Behavior) (s : St) : St :=
  armStep (createStep (clearStep { s with editor := b }))

/-- Scheduler actions: the discrete events of the host event loop and the
sandbox contexts. -/
inductive Act : Type where
  | userRun : Behavior → Act
  | timerFire : Act
  | ctxLoad : Nat → Act
  | deliverRun : Nat → Act
  | deliverOut : Act
  | asyncFire : Nat → Act

/-- Is this action a user-initiated run? -/
def Act.isUserRun : Act → Bool
  | .userRun _ => true
  | _ => false

/-- Small-step transition: `none` when the action is not enabled.

* `userRun b` — the user triggers `run()` with editor content `b`.
* `timerFire` — an armed `setTimeout(send, 0)` callback runs.
* `ctxLoad c` — live context `c` finishes loading: its boot script has
  installed the interceptors and listeners, and the host's once load
  listener (if still armed for `c`) fires and calls `send`.
* `deliverRun c` — the oldest in-flight RunRequest, addressed to live
  context `c`, is delivered; a context whose listener is not yet
  installed ignores it.
* `deliverOut` — the oldest queued `Output` message reaches the host
  listener, which appends whatever line `hostHandle` produces.
* `asyncFire c` — live context `c`'s next asynchronous continuation runs
  and performs its send. -/
def step (s : St) (a : Act) : Option St :=
  match a with
  | .userRun b => some (runStep b s)
  | .timerFire =>
      match s.timers with
      | 0 => none
      | t + 1 => some (doSend { s with timers := t })
  | .ctxLoad c =>
      match findCtx s c with
      | none => none
      | some k =>
          if k.loaded then none
          else
            let s1 := { s with ctxs := setLoaded c s.ctxs }
            if c ∈ s1.loadArmed then
              some (doSend { s1 with loadArmed := s1.loadArmed.erase c })
            else some s1
  | .deliverRun c =>
      match s.runMsgs with
      | [] => none
      | (c', b) :: rest =>
          if c' ≠ c then none
          else
            match findCtx s c with
            | none => none
            | some k =>
                if k.loaded then
                  some { s with runMsgs := rest,
                                ctxs := bumpRan c b s.ctxs,
                                outMsgs := s.outMsgs ++ ((sandboxOnRun b).1.map (fun m => (c, m))) }
                else some { s with runMsgs := rest }
  | .deliverOut =>
      match s.outMsgs with
      | [] => none
      | (c, m) :: rest =>
          match hostHandle (outMsgData m.1.tag m.2) with
          | .ok none => some { s with outMsgs := rest }
          | .ok (some l) => some { s with outMsgs := rest, display := s.display ++ [(c, l)] }
          | .error _ => none
  | .asyncFire c =>
      match findCtx s c with
      | none => none
      | some k =>
          match k.pendingAsync with
          | [] => none
          | m :: _ => some { s with ctxs := popAsync c s.ctxs, outMsgs := s.outMsgs ++ [(c, m)] }

/-- Run a list of scheduler actions. -/
def exec (s : St) : List Act → Option St
  | [] => some s
  | a :: rest =>
      match step s a with
      | none => none
      | some s' => exec s' rest

/-- No user-initiated run among the actions. -/
def NoUserRun (acts : List Act) : Prop :=
  ∀ a ∈ acts, a.isUserRun = false

/-! ## Concrete behaviors and schedules used by the claims -/

/-- Behavior of run 1's code: one synchronous `console.log('old')`. -/
def c1OldBehavior : Behavior := ⟨[(EKind.log, [JSVal.str "old"])], none, []⟩

/-- Failing schedule for claim C1: run 1's context emits an `Output` whose
delivery task is still queued at the host when run 2 starts (run 2's
`run()` executes as the next task); the message is delivered after run 2's
display clear. -/
def c1Acts : List Act :=
  [Act.userRun c1OldBehavior, Act.ctxLoad 0, Act.deliverRun 0,
   Act.userRun emptyBehavior, Act.deliverOut]

/-- Behavior of the submitted code for claim C2: one `console.log('hi')`. -/
def c2Behavior : Behavior := ⟨[(EKind.log, [JSVal.str "hi"])], none, []⟩

/-- Failing schedule for claim C2: the iframe finishes loading (and the
load-event send fires) before the armed `setTimeout(send, 0)` callback
runs — e.g. under background-tab timer throttling.  Nothing cancels the
timer, so both sends post the RunRequest. -/
def c2Acts : List Act :=
  [Act.userRun c2Behavior, Act.ctxLoad 0, Act.deliverRun 0, Act.timerFire, Act.deliverRun 0,
   Act.deliverOut, Act.deliverOut]

/-- A concrete thrown error for the C4 witness, with the message on its
stack as browsers produce it. -/
def c4Err : JSError := ⟨"Error", "boom", "Error: boom\n    at <anonymous>:1:7"⟩

/-- The display line of an unhandled-rejection `Output` with stringified
reason `y`: the rejection hook sends `Output(error, [String(e.reason)])`. -/
def errLine (y : String) : Line := ⟨"error", y⟩

/-- Single-run invariant for claim C5, relating the display buffer, the
queued `Output` messages and the pending asynchronous sends of the one
live context to how often the RunRequest has been executed.  An escape
branch covers double execution (settled separately by claim C2). -/
def C5Inv (b : Behavior) (s : St) : Prop :=
  s.current = some 0
  ∧ s.editor = b
  ∧ (∀ m ∈ s.runMsgs, m = ((0 : Nat), b))
  ∧ ∃ k, s.ctxs = [k] ∧ k.cid = 0 ∧
      ((k.ran = 0 ∧ s.display = [] ∧ s.outMsgs = [] ∧ k.pendingAsync = [])
       ∨ (k.ran = 1 ∧ ∃ j, j ≤ b.asyncEmits.length
            ∧ s.display.map Prod.snd ++ s.outMsgs.map (fun p => emitLine p.2)
                = syncLines b ++ (b.asyncEmits.take j).map emitLine
            ∧ k.pendingAsync = b.asyncEmits.drop j)
       ∨ 2 ≤ k.ran)

/-- The canonical complete schedule of one run of code with behavior `b`:
the timer send arrives before the boot script has installed its listener
(and is ignored), the load-path send is executed once, every synchronous
`Output` is delivered, then the single asynchronous send fires and is
delivered. -/
def c5CompleteSched (b : Behavior) : List Act :=
  [Act.timerFire, Act.deliverRun 0, Act.ctxLoad 0, Act.deliverRun 0]
    ++ List.replicate b.syncEmits.length Act.deliverOut
    ++ [Act.asyncFire 0, Act.deliverOut]

/-- Behavior for claim C5's schedules: one synchronous `console.log('s')`
and one unhandled rejection with stringified reason `y`. -/
def c5CexBehavior : Behavior :=
  ⟨[(EKind.log, [JSVal.str "s"])], none, [(EKind.error, [JSVal.str "y"])]⟩

/-- Failing schedule for claim C5: the run request is executed twice (the
load-path send and the uncancelled timer send, as in claim C2), so the
rejection hook fires twice and the second synchronous log line lands after
the first rejection line. -/
def c5CexActs : List Act :=
  [Act.userRun c5CexBehavior, Act.ctxLoad 0, Act.deliverRun 0, Act.asyncFire 0,
   Act.timerFire, Act.deliverRun 0, Act.asyncFire 0,
   Act.deliverOut, Act.deliverOut, Act.deliverOut, Act.deliverOut]

/-- C9 invariant: the module-level `iframe` variable, the attached-iframe
list and the live contexts agree — either nothing yet, or exactly the one
current context. -/
def AtMostOne (s : St) : Prop :=
  (s.current = none ∧ s.attached = [] ∧ s.ctxs = [])
  ∨ (∃ c, s.current = some c ∧ s.attached = [c] ∧ s.ctxs.map Ctx.cid = [c])

/-- C8 invariant: while the editor and every in-flight request carry the
empty behavior, nothing is ever displayed, queued or scheduled. -/
def QuietSt (s : St) : Prop :=
  s.display = [] ∧ s.outMsgs = [] ∧ s.editor = emptyBehavior
  ∧ (∀ m ∈ s.runMsgs, m.2 = emptyBehavior)
  ∧ (∀ k ∈ s.ctxs, k.pendingAsync = [])

/-- Witness schedule for claim C9: two runs back to back. -/
def c9WitActs : List Act :=
  [Act.userRun emptyBehavior, Act.ctxLoad 0, Act.userRun emptyBehavior]

/-- The state reached by the C9 witness schedule. -/
def c9Final : St :=
  (exec init c9WitActs).getD init

/-- Witness schedule for claim C8: the canonical complete single run
(timer fires early and is ignored, the load-path send is executed). -/
def c8WitActs : List Act :=
  [Act.timerFire, Act.deliverRun 0, Act.ctxLoad 0, Act.deliverRun 0]

/-- The state reached by the C8 witness schedule. -/
def c8Final : St :=
  (exec (runStep emptyBehavior init) c8WitActs).getD init

/-! ## Claim C1 -/

/-- Claim C1, evaluated at the failing schedule: after run 2's display
clear (current context 1), the line originating from superseded context 0
is appended to the display buffer — the host listener has no origin check,
so an in-flight `Output` of a destroyed context still produces a line.
The display is exactly the leaked line `log "old"` tagged with source
context 0 while the current context is 1. -/
theorem c1_stale_line_after_clear :
    (exec init c1Acts).map (fun s => (s.display, s.current)) =
      some ([(0, ⟨"log", "old"⟩)], some 1) := rfl

/-! ## Claim C2 -/

/-- Claim C2, evaluated at the failing schedule: the RunRequest is sent
twice to context 0 (`sent = [0, 0]`), the context executes the submitted
code twice (`ran = 2`), and the display shows the log line twice. -/
theorem c2_request_sent_twice :
    (exec init c2Acts).map
        (fun s => (s.sent, s.ctxs.map (fun k => (k.cid, k.ran)), s.display.map Prod.snd)) =
      some ([0, 0], [(0, 2)], [⟨"log", "hi"⟩, ⟨"log", "hi"⟩]) := rfl

/-! ## Claim C3 -/

/-- Claim C3 counterexample: a message carrying the sandbox discriminator
but a non-sequence `args` field (the number 5) is not silently dropped —
spreading the non-iterable value makes the host's message handler throw a
`TypeError`. -/
theorem c3_unexpected_shape_throws :
    hostHandle (JSVal.obj [("__fromSandbox", JSVal.bool true), ("type", JSVal.str "log"),
        ("args", JSVal.num 5)]) =
      .error "TypeError: spread argument is not iterable" := rfl

/-- Claim C3 as amended: only the discriminator is validated.  A message
whose `__fromSandbox` field is missing or falsy is silently dropped (no
line, no exception); but with the discriminator present the shape is not
checked — a truthy non-iterable `args` makes the handler throw (see the
counterexample), and an iterable non-array `args` such as a string
produces a display line from its characters. -/
theorem c3_amended_validation :
    (∀ d : JSVal, truthy (getProp d "__fromSandbox") = false → hostHandle d = .ok none)
    ∧ hostHandle (JSVal.obj [("__fromSandbox", JSVal.bool true), ("args", JSVal.str "ab")]) =
        .ok (some ⟨"log", "a b"⟩) := by
  refine ⟨?_, rfl⟩
  intro d h
  cases hd : truthy d <;> simp [hostHandle, hd, h]

/-- Witness for C3's amended theorem at the concrete message `5`
(truthy, not an object, hence no discriminator): silently dropped. -/
theorem c3_amended_validation_witness :
    hostHandle (JSVal.num 5) = Except.ok none :=
  c3_amended_validation.1 (JSVal.num 5) rfl

/-! ## Claim C6 -/

/-- Claim C6: `format` renders a string verbatim; any other value renders
via its JSON serialization; if serialization throws, it falls back to the
`String(v)` coercion (a total function — nothing is thrown, and sibling
arguments are still rendered, as the cyclic-plus-string example shows);
`renderText` joins the formatted arguments with single spaces, so
`log("Hello","World")` gives one log-kind line `Hello World`, `log(42)`
gives `42`, and `log({a:1})` gives the JSON text of the object. -/
theorem c6_format_and_render :
    (∀ s, format (JSVal.str s) = some s)
    ∧ (∀ v s, (∀ t, v ≠ JSVal.str t) → jsonStringify v = JOut.ok s → format v = some s)
    ∧ (∀ v, (∀ t, v ≠ JSVal.str t) → jsonStringify v = JOut.fail → format v = some (strCoerce v))
    ∧ renderText [JSVal.str "Hello", JSVal.str "World"] = "Hello World"
    ∧ renderText [JSVal.num 42] = "42"
    ∧ renderText [JSVal.obj [("a", JSVal.num 1)]] = "\x7b\x22a\x22:1\x7d"
    ∧ renderText [JSVal.cyclicObj, JSVal.str "ok"] = "[object Object] ok"
    ∧ hostHandle (outMsgData EKind.log.tag [JSVal.str "Hello", JSVal.str "World"]) =
        .ok (some ⟨"log", "Hello World"⟩) := by
  refine ⟨fun s => rfl, ?_, ?_, rfl, rfl, rfl, rfl, rfl⟩
  · intro v s hv hj
    cases v
    case str t => exact absurd rfl (hv t)
    all_goals simp only [format]; rw [hj]
  · intro v hv hj
    cases v
    case str t => exact absurd rfl (hv t)
    all_goals simp only [format]; rw [hj]

/-- Witness for C6 at the concrete non-string value `42`. -/
theorem c6_format_and_render_witness :
    format (JSVal.num 42) = some "42" :=
  c6_format_and_render.2.1 (JSVal.num 42) "42" (fun _ h => JSVal.noConfusion h) rfl

/-! ## Claim C7 -/

/-- Claim C7: `run()` is the composition of `clearConsole`, then
`createSandbox`, then the send-arming tail; the clear empties the display,
neither of the later phases appends a display line, the arming phase posts
no message (it only arms the timer and the load listener), and the state
right after `run()` has an empty display — so lines never accumulate
across runs. -/
theorem c7_run_clears_display_first (b : Behavior) (s : St) :
    runStep b s = armStep (createStep (clearStep { s with editor := b }))
    ∧ (clearStep { s with editor := b }).display = []
    ∧ (∀ s', (createStep s').display = s'.display)
    ∧ (∀ s', (armStep s').display = s'.display ∧ (armStep s').runMsgs = s'.runMsgs
        ∧ (armStep s').outMsgs = s'.outMsgs)
    ∧ (∀ s', (createStep s').outMsgs = s'.outMsgs)
    ∧ (runStep b s).display = [] := by
  have hc : ∀ s' : St, (createStep s').display = s'.display := by
    intro s'
    rcases hs : s'.current with _ | c <;> simp only [createStep, hs] <;>
      first
      | rfl
      | (split <;> rfl)
  have hco : ∀ s' : St, (createStep s').outMsgs = s'.outMsgs := by
    intro s'
    rcases hs : s'.current with _ | c <;> simp only [createStep, hs] <;>
      first
      | rfl
      | (split <;> rfl)
  have ha : ∀ s' : St, (armStep s').display = s'.display ∧ (armStep s').runMsgs = s'.runMsgs
      ∧ (armStep s').outMsgs = s'.outMsgs := by
    intro s'
    rcases hs : s'.current with _ | c <;> simp [armStep, hs]
  refine ⟨rfl, rfl, hc, ha, hco, ?_⟩
  show (armStep (createStep (clearStep { s with editor := b }))).display = []
  rw [(ha _).1, hc]
  rfl

/-- Witness for C7 at the initial state and the empty editor. -/
theorem c7_run_clears_display_first_witness :
    (runStep emptyBehavior init).display = [] :=
  (c7_run_clears_display_first emptyBehavior init).2.2.2.2.2

/-! ## Claim C10 -/

/-- Claim C10: with the discriminator present, a missing (or falsy) `type`
field renders the line with kind `log` instead of dropping the message; a
missing `args` field still appends one line, with empty text; and an
argument whose JSON serialization is the absent value (`undefined`)
contributes empty text to the line, not the string `undefined`. -/
theorem c10_defaults_and_absent :
    (∀ args : List JSVal,
        hostHandle (JSVal.obj [("__fromSandbox", JSVal.bool true), ("args", JSVal.arr args)]) =
          .ok (some ⟨"log", renderText args⟩))
    ∧ (∀ args : List JSVal,
        hostHandle (JSVal.obj [("__fromSandbox", JSVal.bool true), ("type", JSVal.str ""),
            ("args", JSVal.arr args)]) =
          .ok (some ⟨"log", renderText args⟩))
    ∧ hostHandle (JSVal.obj [("__fromSandbox", JSVal.bool true), ("type", JSVal.str "warn")]) =
        .ok (some ⟨"warn", ""⟩)
    ∧ format JSVal.undefined = none
    ∧ renderText [JSVal.undefined] = ""
    ∧ renderText [JSVal.str "a", JSVal.undefined] = "a "
    ∧ renderText [JSVal.undefined, JSVal.str "b"] = " b" :=
  ⟨fun _ => rfl, fun _ => rfl, rfl, rfl, rfl, rfl, rfl⟩

/-- Witness for C10 at a concrete one-argument message with no `type`. -/
theorem c10_defaults_and_absent_witness :
    hostHandle (JSVal.obj [("__fromSandbox", JSVal.bool true),
        ("args", JSVal.arr [JSVal.str "w"])]) =
      .ok (some ⟨"log", "w"⟩) :=
  c10_defaults_and_absent.1 [JSVal.str "w"]

/-! ## General lemmas about the transition system -/

/-- A pointwise cid-preserving reshaping of the contexts leaves the id
list unchanged. -/
theorem map_cid_of_pointwise (f : Ctx → Ctx) (hf : ∀ k, (f k).cid = k.cid)
    (l : List Ctx) : (l.map f).map Ctx.cid = l.map Ctx.cid := by
  induction l with
  | nil => rfl
  | cons k r ih => simp [hf, ih]

/-- Lemma: `setLoaded` does not change the context ids. -/
theorem setLoaded_cid (c : Nat) (l : List Ctx) :
    (setLoaded c l).map Ctx.cid = l.map Ctx.cid := by
  refine map_cid_of_pointwise _ (fun k => ?_) l
  by_cases h : k.cid == c <;> simp [h]

/-- Lemma: `bumpRan` does not change the context ids. -/
theorem bumpRan_cid (c : Nat) (b : Behavior) (l : List Ctx) :
    (bumpRan c b l).map Ctx.cid = l.map Ctx.cid := by
  refine map_cid_of_pointwise _ (fun k => ?_) l
  by_cases h : k.cid == c <;> simp [h]

/-- Lemma: `popAsync` does not change the context ids. -/
theorem popAsync_cid (c : Nat) (l : List Ctx) :
    (popAsync c l).map Ctx.cid = l.map Ctx.cid := by
  refine map_cid_of_pointwise _ (fun k => ?_) l
  by_cases h : k.cid == c <;> simp [h]

/-- Lemma: `doSend` only touches the in-flight requests and the ghost send log. -/
theorem doSend_shape (s : St) :
    (doSend s).current = s.current ∧ (doSend s).attached = s.attached
    ∧ (doSend s).ctxs = s.ctxs ∧ (doSend s).display = s.display
    ∧ (doSend s).outMsgs = s.outMsgs ∧ (doSend s).editor = s.editor := by
  rcases hc : s.current with _ | c <;> simp [doSend, hc]

/-- Every action except a user run leaves the current-iframe variable, the
attached list and the live context ids unchanged. -/
theorem step_shape {s s' : St} {a : Act} (ha : a.isUserRun = false)
    (h : step s a = some s') :
    s'.current = s.current ∧ s'.attached = s.attached
    ∧ s'.ctxs.map Ctx.cid = s.ctxs.map Ctx.cid := by
  cases a with
  | userRun b => simp [Act.isUserRun] at ha
  | timerFire =>
      simp only [step] at h
      split at h
      · exact Option.noConfusion h
      · injection h with h
        subst h
        obtain ⟨h1, h2, h3, _⟩ := doSend_shape _
        exact ⟨h1, h2, by rw [h3]⟩
  | ctxLoad c =>
      simp only [step] at h
      split at h
      · exact Option.noConfusion h
      · split at h
        · exact Option.noConfusion h
        · split at h
          · injection h with h
            subst h
            obtain ⟨h1, h2, h3, _⟩ := doSend_shape _
            refine ⟨h1, h2, ?_⟩
            rw [h3]
            exact setLoaded_cid c s.ctxs
          · injection h with h
            subst h
            exact ⟨rfl, rfl, setLoaded_cid c s.ctxs⟩
  | deliverRun c =>
      simp only [step] at h
      split at h
      · exact Option.noConfusion h
      · split at h
        · exact Option.noConfusion h
        · split at h
          · exact Option.noConfusion h
          · split at h
            · injection h with h
              subst h
              exact ⟨rfl, rfl, bumpRan_cid _ _ _⟩
            · injection h with h
              subst h
              exact ⟨rfl, rfl, rfl⟩
  | deliverOut =>
      simp only [step] at h
      split at h
      · exact Option.noConfusion h
      · split at h
        · injection h with h
          subst h
          exact ⟨rfl, rfl, rfl⟩
        · injection h with h
          subst h
          exact ⟨rfl, rfl, rfl⟩
        · exact Option.noConfusion h
  | asyncFire c =>
      simp only [step] at h
      split at h
      · exact Option.noConfusion h
      · split at h
        · exact Option.noConfusion h
        · injection h with h
          subst h
          exact ⟨rfl, rfl, popAsync_cid _ _⟩

/-- Fold a step-preserved predicate along a run of the system. -/
theorem exec_preserve {P : St → Prop}
    (hstep : ∀ s a s', step s a = some s' → P s → P s') :
    ∀ acts s s', exec s acts = some s' → P s → P s' := by
  intro acts
  induction acts with
  | nil =>
      intro s s' h hp
      injection h with h
      subst h
      exact hp
  | cons a rest ih =>
      intro s s' h hp
      simp only [exec] at h
      split at h
      · exact Option.noConfusion h
      · rename_i s1 hs1
        exact ih s1 s' h (hstep s a s1 hs1 hp)

/-- Fold a predicate preserved by all non-user-run steps along a
user-run-free schedule. -/
theorem exec_preserve_noRun {P : St → Prop}
    (hstep : ∀ s a s', a.isUserRun = false → step s a = some s' → P s → P s') :
    ∀ acts, NoUserRun acts → ∀ s s', exec s acts = some s' → P s → P s' := by
  intro acts
  induction acts with
  | nil =>
      intro _ s s' h hp
      injection h with h
      subst h
      exact hp
  | cons a rest ih =>
      intro hno s s' h hp
      simp only [exec] at h
      split at h
      · exact Option.noConfusion h
      · rename_i s1 hs1
        refine ih (fun x hx => hno x (List.mem_cons_of_mem a hx)) s1 s' h
          (hstep s a s1 (hno a (List.mem_cons_self a rest)) hs1 hp)

/-- A list of contexts whose id list is the singleton `[c]` is one context
with id `c`. -/
theorem ctxs_of_cid_singleton {l : List Ctx} {c : Nat}
    (h : l.map Ctx.cid = [c]) : ∃ k, l = [k] ∧ k.cid = c := by
  cases l with
  | nil => simp at h
  | cons k r =>
      simp only [List.map_cons] at h
      injection h with h1 h2
      cases r with
      | nil => exact ⟨k, rfl, h1⟩
      | cons k2 r2 => simp at h2

/-! ## Claim C9 -/

/-- The C9 invariant holds in the initial state. -/
theorem atMostOne_init : AtMostOne init :=
  Or.inl ⟨rfl, rfl, rfl⟩

/-- Every step preserves the C9 invariant: a user run destroys the single
previous context while creating the new one, and no other action touches
the document. -/
theorem atMostOne_step {s s' : St} {a : Act}
    (h : step s a = some s') (hs : AtMostOne s) : AtMostOne s' := by
  cases ha : a.isUserRun with
  | false =>
      obtain ⟨h1, h2, h3⟩ := step_shape ha h
      rcases hs with ⟨g1, g2, g3⟩ | ⟨c, g1, g2, g3⟩
      · exact Or.inl ⟨h1.trans g1, h2.trans g2, by
          have := h3.trans (by rw [g3])
          cases hc : s'.ctxs with
          | nil => rfl
          | cons k r => rw [hc] at this; simp at this⟩
      · exact Or.inr ⟨c, h1.trans g1, h2.trans g2, h3.trans (by rw [g3])⟩
  | true =>
      cases a with
      | userRun b =>
          simp only [step, Option.some.injEq] at h
          subst h
          rcases hs with ⟨g1, g2, g3⟩ | ⟨c, g1, g2, g3⟩
          · exact Or.inr ⟨s.nextId, by
              simp [runStep, armStep, createStep, clearStep, g1, g2, g3]⟩
          · obtain ⟨k, hk, hkc⟩ := ctxs_of_cid_singleton g3
            refine Or.inr ⟨s.nextId, ?_⟩
            simp [runStep, armStep, createStep, clearStep, g1, g2, hk, hkc]
      | timerFire => simp [Act.isUserRun] at ha
      | ctxLoad c => simp [Act.isUserRun] at ha
      | deliverRun c => simp [Act.isUserRun] at ha
      | deliverOut => simp [Act.isUserRun] at ha
      | asyncFire c => simp [Act.isUserRun] at ha

/-- Claim C9: after any sequence of scheduler actions (in particular any
sequence of runs, each of which calls `createSandbox`), at most one
sandbox iframe is attached to the document and at most one execution
context is live; `createSandbox` removes the previous iframe synchronously
as part of creating the new one. -/
theorem c9_at_most_one_context (acts : List Act) (s : St)
    (h : exec init acts = some s) :
    s.attached.length ≤ 1 ∧ s.ctxs.length ≤ 1 := by
  have hinv : AtMostOne s :=
    exec_preserve (fun s a s' h hp => atMostOne_step h hp) acts init s h atMostOne_init
  rcases hinv with ⟨_, h2, h3⟩ | ⟨c, _, h2, h3⟩
  · rw [h2, h3]
    exact ⟨Nat.zero_le 1, Nat.zero_le 1⟩
  · obtain ⟨k, hk, _⟩ := ctxs_of_cid_singleton h3
    rw [h2, hk]
    exact ⟨Nat.le_refl 1, Nat.le_refl 1⟩

/-- Witness for C9 after two back-to-back runs: at most one iframe is
attached and at most one context is live. -/
theorem c9_at_most_one_context_witness :
    c9Final.attached.length ≤ 1 ∧ c9Final.ctxs.length ≤ 1 :=
  c9_at_most_one_context c9WitActs c9Final rfl

/-! ## Claim C8 -/

/-- Lemma: `doSend` preserves quietness (it only posts the empty-behavior code). -/
theorem quiet_doSend {s : St} (hq : QuietSt s) : QuietSt (doSend s) := by
  obtain ⟨q1, q2, q3, q4, q5⟩ := hq
  rcases hc : s.current with _ | c
  · simp only [doSend, hc]
    exact ⟨q1, q2, q3, q4, q5⟩
  · simp only [doSend, hc]
    refine ⟨q1, q2, q3, ?_, q5⟩
    intro m hm
    rcases List.mem_append.mp hm with hm' | hm'
    · exact q4 m hm'
    · rw [List.mem_singleton.mp hm']
      exact q3

/-- Lemma: `setLoaded` leaves every pending-async list unchanged. -/
theorem quiet_setLoaded {c : Nat} {l : List Ctx}
    (h5 : ∀ k ∈ l, k.pendingAsync = ([] : List Emit)) :
    ∀ k ∈ setLoaded c l, k.pendingAsync = [] := by
  intro k hk
  simp only [setLoaded] at hk
  obtain ⟨k0, hk0, rfl⟩ := List.mem_map.mp hk
  by_cases h : k0.cid == c <;> simp [h, h5 k0 hk0]

/-- Lemma: `bumpRan` with the empty behavior schedules no asynchronous sends. -/
theorem quiet_bumpRan {c : Nat} {l : List Ctx}
    (h5 : ∀ k ∈ l, k.pendingAsync = ([] : List Emit)) :
    ∀ k ∈ bumpRan c emptyBehavior l, k.pendingAsync = [] := by
  intro k hk
  simp only [bumpRan] at hk
  obtain ⟨k0, hk0, rfl⟩ := List.mem_map.mp hk
  by_cases h : k0.cid == c <;> simp [h, h5 k0 hk0, emptyBehavior]

/-- Every non-user-run action preserves quietness: running empty code
never displays, queues or schedules anything. -/
theorem quietSt_step {s s' : St} {a : Act} (ha : a.isUserRun = false)
    (h : step s a = some s') (hq : QuietSt s) : QuietSt s' := by
  obtain ⟨q1, q2, q3, q4, q5⟩ := hq
  cases a with
  | userRun b => simp [Act.isUserRun] at ha
  | timerFire =>
      simp only [step] at h
      split at h
      · exact Option.noConfusion h
      · injection h with h
        subst h
        exact quiet_doSend ⟨q1, q2, q3, q4, q5⟩
  | ctxLoad c =>
      simp only [step] at h
      split at h
      · exact Option.noConfusion h
      · split at h
        · exact Option.noConfusion h
        · split at h
          · injection h with h
            subst h
            exact quiet_doSend ⟨q1, q2, q3, q4, quiet_setLoaded q5⟩
          · injection h with h
            subst h
            exact ⟨q1, q2, q3, q4, quiet_setLoaded q5⟩
  | deliverRun c =>
      simp only [step] at h
      split at h
      · exact Option.noConfusion h
      · rename_i c2 b rest heq
        have hb : b = emptyBehavior := q4 (c2, b) (by rw [heq]; exact List.mem_cons_self _ _)
        split at h
        · exact Option.noConfusion h
        · split at h
          · exact Option.noConfusion h
          · split at h
            · injection h with h
              subst h
              subst hb
              refine ⟨q1, ?_, q3, ?_, quiet_bumpRan q5⟩
              · rw [q2]
                rfl
              · intro m hm
                exact q4 m (by rw [heq]; exact List.mem_cons_of_mem _ hm)
            · injection h with h
              subst h
              refine ⟨q1, q2, q3, ?_, q5⟩
              intro m hm
              exact q4 m (by rw [heq]; exact List.mem_cons_of_mem _ hm)
  | deliverOut =>
      simp only [step] at h
      split at h
      · exact Option.noConfusion h
      · rename_i p rest heq
        rw [q2] at heq
        exact absurd heq (by simp)
  | asyncFire c =>
      simp only [step] at h
      split at h
      · exact Option.noConfusion h
      · rename_i k hk
        split at h
        · exact Option.noConfusion h
        · rename_i m rest heq
          have : k ∈ s.ctxs := List.mem_of_find?_eq_some hk
          rw [q5 k this] at heq
          exact absurd heq (by simp)

/-- The state right after a run of the empty code string is quiet. -/
theorem quiet_after_empty_run : QuietSt (runStep emptyBehavior init) := by
  refine ⟨rfl, rfl, rfl, ?_, ?_⟩
  · intro m hm
    exact absurd hm (List.not_mem_nil m)
  · intro k hk
    have hk' : k = ⟨0, false, 0, []⟩ := List.mem_singleton.mp hk
    rw [hk']

/-- Claim C8: a run of the empty code string produces no output events and
no display lines under every schedule — after the run's clear the display
buffer stays empty, no `Output` message is ever queued, and no
asynchronous send is ever pending. -/
theorem c8_empty_run (acts : List Act) (s : St) (hacts : NoUserRun acts)
    (h : exec (runStep emptyBehavior init) acts = some s) :
    s.display = [] ∧ s.outMsgs = [] ∧ ∀ k ∈ s.ctxs, k.pendingAsync = [] := by
  have hq : QuietSt s :=
    exec_preserve_noRun (fun s a s' ha h hp => quietSt_step ha h hp) acts hacts _ s h
      quiet_after_empty_run
  exact ⟨hq.1, hq.2.1, hq.2.2.2.2⟩

/-- Witness for C8 at the canonical complete single-run schedule. -/
theorem c8_empty_run_witness :
    c8Final.display = [] ∧ c8Final.outMsgs = [] :=
  ⟨(c8_empty_run c8WitActs c8Final (by intro a ha; fin_cases ha <;> rfl) rfl).1,
   (c8_empty_run c8WitActs c8Final (by intro a ha; fin_cases ha <;> rfl) rfl).2.1⟩

/-! ## Claim C4 -/

/-- Claim C4: submitting code that synchronously throws an error `e` with
message `x` (and emits nothing else): the sandbox's handling of the
request sends exactly one error-kind `Output` whose single argument is
`String(err && err.stack || err)`, which contains `x`; the exception does
not escape the handler (second component `none`); and under the canonical
schedule the whole run displays exactly that one error line. -/
theorem c4_sync_throw_one_error (x : String) (e : JSError)
    (hmsg : e.message = x)
    (hstack : e.stack = "" ∨ x.data <:+: e.stack.data) :
    (sandboxOnRun ⟨[], some e, []⟩).1 = [(EKind.error, [JSVal.str (errText e)])]
    ∧ (sandboxOnRun ⟨[], some e, []⟩).2 = none
    ∧ x.data <:+: (errText e).data
    ∧ (exec init [Act.userRun ⟨[], some e, []⟩, Act.timerFire, Act.deliverRun 0,
        Act.ctxLoad 0, Act.deliverRun 0, Act.deliverOut]).map
          (fun s => s.display.map Prod.snd) =
        some [⟨"error", errText e⟩] := by
  refine ⟨rfl, rfl, ?_, rfl⟩
  by_cases hst : e.stack = ""
  · simp only [errText, hst, ne_eq, not_true_eq_false, if_false, hmsg]
    have h1 : (e.name ++ ": " ++ x).data = (e.name ++ ": ").data ++ x.data :=
      String.data_append _ _
    rw [h1]
    exact (List.suffix_append _ _).isInfix
  · simp only [errText, ne_eq, hst, not_false_eq_true, if_true]
    rcases hstack with h | h
    · exact absurd h hst
    · exact h

/-- Claim C4 counterexample: under the double-execution schedule (claim
C2's flaw), a run of code that synchronously throws yields TWO error-kind
display lines, not exactly one. -/
theorem c4_two_error_lines_counterexample :
    (exec init [Act.userRun ⟨[], some c4Err, []⟩, Act.ctxLoad 0, Act.deliverRun 0,
        Act.timerFire, Act.deliverRun 0, Act.deliverOut, Act.deliverOut]).map
          (fun s => s.display.map Prod.snd) =
      some [⟨"error", errText c4Err⟩, ⟨"error", errText c4Err⟩] := rfl

/-- Witness for C4 at the concrete error `c4Err`: the run displays exactly
one error line, whose text is the stack containing the message. -/
theorem c4_sync_throw_one_error_witness :
    (exec init [Act.userRun ⟨[], some c4Err, []⟩, Act.timerFire, Act.deliverRun 0,
        Act.ctxLoad 0, Act.deliverRun 0, Act.deliverOut]).map
          (fun s => s.display.map Prod.snd) =
      some [⟨"error", errText c4Err⟩] :=
  (c4_sync_throw_one_error "boom" c4Err rfl
    (Or.inr ⟨"Error: ".data, "\n    at <anonymous>:1:7".data, rfl⟩)).2.2.2

/-! ## Claim C5: supporting lemmas -/

/-- The host listener on a well-formed sandbox `Output` message appends
exactly the corresponding line. -/
theorem hostHandle_out (k : EKind) (args : List JSVal) :
    hostHandle (outMsgData k.tag args) = .ok (some (emitLine (k, args))) := by
  cases k <;> rfl

/-- The four type tags are distinct strings: only `error` renders `error`. -/
theorem EKind.eq_error_of_tag {k : EKind} (h : k.tag = "error") : k = EKind.error := by
  cases k
  · exact absurd h (by decide)
  · exact absurd h (by decide)
  · exact absurd h (by decide)
  · rfl

/-- An error line never comes from non-error synchronous console calls. -/
theorem errLine_not_mem_syncLines {b : Behavior} {y : String}
    (hkinds : ∀ m ∈ b.syncEmits, m.1 ≠ EKind.error) :
    errLine y ∉ syncLines b := by
  intro hmem
  simp only [syncLines] at hmem
  obtain ⟨m, hm, hEq⟩ := List.mem_map.mp hmem
  have ht : m.1.tag = "error" := congrArg Line.kind hEq
  exact hkinds m hm (EKind.eq_error_of_tag ht)

/-- A list that extends to `s ++ [e]`, contains `e`, while `s` does not,
is all of `s ++ [e]`. -/
theorem prefix_snoc_eq {α : Type} {l s : List α} {e : α}
    (hp : l <+: s ++ [e]) (he : e ∉ s) (hm : e ∈ l) : l = s ++ [e] := by
  rcases Nat.lt_or_ge l.length (s ++ [e]).length with hlen | hlen
  · exfalso
    have hle : l.length ≤ s.length := by
      simp only [List.length_append, List.length_singleton] at hlen
      omega
    have hl := List.prefix_iff_eq_take.mp hp
    rw [List.take_append_eq_append_take] at hl
    have h0 : l.length - s.length = 0 := Nat.sub_eq_zero_of_le hle
    rw [h0] at hl
    simp only [List.take_zero, List.append_nil] at hl
    have hps : l <+: s := by
      rw [hl]
      exact ⟨s.drop l.length, List.take_append_drop _ _⟩
    exact he (hps.subset hm)
  · exact hp.eq_of_length (Nat.le_antisymm hp.length_le hlen)

/-- When the code throws nothing synchronously, the sandbox forwards
exactly its console sends. -/
theorem sandboxOnRun_fst_of_noThrow {b : Behavior} (h : b.syncThrow = none) :
    (sandboxOnRun b).1 = b.syncEmits := by
  simp [sandboxOnRun, rawExec, h]

/-- Looking up a context in a one-context system. -/
theorem findCtx_singleton {s : St} {k k' : Ctx} {c : Nat} (hk : s.ctxs = [k])
    (h : findCtx s c = some k') : k' = k ∧ k.cid = c := by
  unfold findCtx at h
  rw [hk] at h
  by_cases hc : k.cid == c
  · simp only [List.find?, hc, Option.some.injEq] at h
    exact ⟨h.symm, eq_of_beq hc⟩
  · simp [List.find?, hc] at h

/-- Lemma: `setLoaded` on the one live context. -/
theorem setLoaded_singleton {k : Ctx} (c : Nat) (h : k.cid = c) :
    setLoaded c [k] = [{ k with loaded := true }] := by
  simp [setLoaded, h]

/-- Lemma: `bumpRan` on the one live context. -/
theorem bumpRan_singleton {k : Ctx} (c : Nat) (b : Behavior) (h : k.cid = c) :
    bumpRan c b [k] =
      [{ k with ran := k.ran + 1, pendingAsync := k.pendingAsync ++ b.asyncEmits }] := by
  simp [bumpRan, h]

/-- Lemma: `popAsync` on the one live context. -/
theorem popAsync_singleton {k : Ctx} (c : Nat) (h : k.cid = c) :
    popAsync c [k] = [{ k with pendingAsync := k.pendingAsync.tail }] := by
  simp [popAsync, h]

/-- The run counter of the one live context. -/
theorem ranOf_singleton {s : St} {k : Ctx} (hk : s.ctxs = [k]) (hk0 : k.cid = 0) :
    ranOf s 0 = k.ran := by
  unfold ranOf findCtx
  rw [hk]
  simp [List.find?, hk0]

/-- Schedules compose: running a concatenation is running the pieces. -/
theorem exec_append (l1 l2 : List Act) :
    ∀ s, exec s (l1 ++ l2) = (exec s l1).bind (fun s' => exec s' l2) := by
  induction l1 with
  | nil => intro s; rfl
  | cons a l1 ih =>
      intro s
      simp only [List.cons_append, exec]
      cases hs : step s a with
      | none => rfl
      | some s1 => exact ih s1

/-- Delivering `n` queued `Output` messages moves their lines to the
display, in order. -/
theorem exec_replicate_deliverOut :
    ∀ (n : Nat) (s : St), n ≤ s.outMsgs.length →
      exec s (List.replicate n Act.deliverOut) =
        some { s with
               display := s.display ++ (s.outMsgs.take n).map (fun p => (p.1, emitLine p.2)),
               outMsgs := s.outMsgs.drop n } := by
  intro n
  induction n with
  | zero =>
      intro s h
      simp [exec]
  | succ n ih =>
      intro s h
      cases hm : s.outMsgs with
      | nil => rw [hm] at h; simp at h
      | cons p rest =>
          obtain ⟨c0, m0⟩ := p
          have hstep : step s Act.deliverOut =
              some { s with outMsgs := rest,
                            display := s.display ++ [(c0, emitLine m0)] } := by
            simp only [step, hm]
            rw [hostHandle_out]
          have hle : n ≤ rest.length := by
            rw [hm] at h
            simp only [List.length_cons] at h
            omega
          rw [List.replicate_succ]
          simp only [exec, hstep]
          rw [ih _ hle]
          simp [hm, List.append_assoc]

/-- Draining the whole `Output` queue. -/
theorem exec_deliverOut_all (s : St) :
    exec s (List.replicate s.outMsgs.length Act.deliverOut) =
      some { s with display := s.display ++ s.outMsgs.map (fun p => (p.1, emitLine p.2)),
                    outMsgs := [] } := by
  have h := exec_replicate_deliverOut s.outMsgs.length s (Nat.le_refl _)
  rwa [List.take_length, List.drop_length] at h

/-- Lemma: `doSend` preserves the C5 single-run invariant. -/
theorem c5Inv_doSend {b : Behavior} {s : St} (hinv : C5Inv b s) : C5Inv b (doSend s) := by
  obtain ⟨h1, h2, h3, k, hk, hk0, hbr⟩ := hinv
  simp only [doSend, h1]
  refine ⟨rfl, h2, ?_, k, hk, hk0, hbr⟩
  intro m hm
  rcases List.mem_append.mp hm with hm' | hm'
  · exact h3 m hm'
  · rw [List.mem_singleton.mp hm', h2]

/-- Every non-user-run action preserves the C5 single-run invariant. -/
theorem c5Inv_step {b : Behavior} (hthrow : b.syncThrow = none)
    {s s' : St} {a : Act} (ha : a.isUserRun = false)
    (h : step s a = some s') (hinv : C5Inv b s) : C5Inv b s' := by
  obtain ⟨h1, h2, h3, k, hk, hk0, hbr⟩ := hinv
  cases a with
  | userRun b2 => simp [Act.isUserRun] at ha
  | timerFire =>
      simp only [step] at h
      split at h
      · exact Option.noConfusion h
      · injection h with h
        subst h
        exact c5Inv_doSend ⟨h1, h2, h3, k, hk, hk0, hbr⟩
  | ctxLoad c =>
      simp only [step] at h
      split at h
      · exact Option.noConfusion h
      · rename_i k2 hk2
        obtain ⟨hkeq, hcc⟩ := findCtx_singleton hk hk2
        subst hkeq
        split at h
        · exact Option.noConfusion h
        · split at h
          · injection h with h
            subst h
            exact c5Inv_doSend ⟨h1, h2, h3, { k2 with loaded := true },
              by rw [hk, setLoaded_singleton c hcc], hk0, hbr⟩
          · injection h with h
            subst h
            exact ⟨h1, h2, h3, { k2 with loaded := true },
              by rw [hk, setLoaded_singleton c hcc], hk0, hbr⟩
  | deliverRun c =>
      simp only [step] at h
      split at h
      · exact Option.noConfusion h
      · rename_i c2 b2 rest heq
        have hcb : (c2, b2) = ((0 : Nat), b) :=
          h3 (c2, b2) (by rw [heq]; exact List.mem_cons_self _ _)
        have hc2 : c2 = 0 := congrArg Prod.fst hcb
        have hb2 : b = b2 := (congrArg Prod.snd hcb).symm
        subst hb2
        split at h
        · exact Option.noConfusion h
        · rename_i hne
          split at h
          · exact Option.noConfusion h
          · rename_i k2 hk2
            obtain ⟨hkeq, hcc⟩ := findCtx_singleton hk hk2
            subst hkeq
            split at h
            · injection h with h
              subst h
              refine ⟨h1, h2,
                fun m hm => h3 m (by rw [heq]; exact List.mem_cons_of_mem _ hm),
                { k2 with ran := k2.ran + 1, pendingAsync := k2.pendingAsync ++ b.asyncEmits },
                by rw [hk, bumpRan_singleton c b hcc], hk0, ?_⟩
              rcases hbr with ⟨hr0, hd, ho, hp⟩ | ⟨hr1, _, _, _, _⟩ | hge
              · refine Or.inr (Or.inl ⟨by simp [hr0], 0, Nat.zero_le _, ?_, by simp [hp]⟩)
                simp [hd, ho, sandboxOnRun_fst_of_noThrow hthrow, List.map_map, syncLines]
              · exact Or.inr (Or.inr (by simp [hr1]))
              · exact Or.inr (Or.inr (by show 2 ≤ k2.ran + 1; omega))
            · injection h with h
              subst h
              exact ⟨h1, h2,
                fun m hm => h3 m (by rw [heq]; exact List.mem_cons_of_mem _ hm),
                k2, hk, hk0, hbr⟩
  | deliverOut =>
      simp only [step] at h
      split at h
      · exact Option.noConfusion h
      · rename_i c0 m0 rest heq
        split at h
        · rename_i heq2
          rw [hostHandle_out] at heq2
          simp at heq2
        · rename_i l heq2
          rw [hostHandle_out] at heq2
          injection heq2 with heq2
          injection heq2 with heq2
          injection h with h
          subst h
          refine ⟨h1, h2, h3, k, hk, hk0, ?_⟩
          rcases hbr with ⟨hr0, hd, ho, hp⟩ | ⟨hr1, j, hj, hline, hpa⟩ | hge
          · rw [ho] at heq
            exact absurd heq (by simp)
          · refine Or.inr (Or.inl ⟨hr1, j, hj, ?_, hpa⟩)
            rw [heq] at hline
            simp only [List.map_cons] at hline
            rw [← heq2]
            simpa [List.append_assoc] using hline
          · exact Or.inr (Or.inr hge)
        · exact Option.noConfusion h
  | asyncFire c =>
      simp only [step] at h
      split at h
      · exact Option.noConfusion h
      · rename_i k2 hk2
        obtain ⟨hkeq, hcc⟩ := findCtx_singleton hk hk2
        subst hkeq
        split at h
        · exact Option.noConfusion h
        · rename_i m0 restPA heq2
          injection h with h
          subst h
          refine ⟨h1, h2, h3, { k2 with pendingAsync := k2.pendingAsync.tail },
            by rw [hk, popAsync_singleton c hcc], hk0, ?_⟩
          rcases hbr with ⟨hr0, hd, ho, hp⟩ | ⟨hr1, j, hj, hline, hpa⟩ | hge
          · rw [hp] at heq2
            exact absurd heq2 (by simp)
          · have hd2 : b.asyncEmits.drop j = m0 :: restPA := by rw [← hpa, heq2]
            have hlt : j < b.asyncEmits.length := by
              by_contra hge'
              rw [List.drop_eq_nil_of_le (Nat.le_of_not_lt hge')] at hd2
              exact Option.noConfusion (congrArg List.head? hd2)
            have hget : b.asyncEmits[j]? = some m0 := by
              rw [← List.head?_drop, hd2]
              rfl
            refine Or.inr (Or.inl ⟨hr1, j + 1, hlt, ?_, ?_⟩)
            · dsimp only
              rw [List.map_append, ← List.append_assoc, hline, List.append_assoc,
                List.take_succ, hget]
              simp
            · show k2.pendingAsync.tail = _
              rw [heq2]
              show restPA = _
              have hdrop : b.asyncEmits.drop (j + 1) = restPA := by
                rw [← List.drop_drop, hd2]
                rfl
              rw [hdrop]
          · exact Or.inr (Or.inr hge)

/-- The C5 invariant holds right after `run()` for code of behavior `b`. -/
theorem c5Inv_base (b : Behavior) : C5Inv b (runStep b init) := by
  refine ⟨rfl, rfl, ?_, ⟨0, false, 0, []⟩, rfl, rfl, Or.inl ⟨rfl, rfl, rfl, rfl⟩⟩
  intro m hm
  exact absurd hm (List.not_mem_nil m)

/-! ## Claim C5 -/

/-- Claim C5 counterexample: under the double-execution schedule (claim
C2's flaw), a run whose code logs once and then rejects asynchronously
with reason `y` yields TWO error-kind lines, and the first error line
arrives strictly before the second synchronous log line of the same run —
against the claimed exactly-one error line strictly after all synchronous
output. -/
theorem c5_two_error_lines_counterexample :
    (exec init c5CexActs).map (fun s => s.display.map Prod.snd) =
      some [⟨"log", "s"⟩, ⟨"error", "y"⟩, ⟨"log", "s"⟩, ⟨"error", "y"⟩]
    ∧ (exec init c5CexActs).map
        (fun s => (s.display.map Prod.snd).countP (fun l => l.kind == "error")) = some 2 :=
  ⟨rfl, rfl⟩

/-- Claim C5 as amended: provided the run's RunRequest is executed at most
once (the common schedule; see claim C2 for the double-execution flaw),
a run whose code makes one unhandled asynchronous rejection with
stringified reason `y` satisfies the claim under every schedule: the
display is always a prefix of the run's synchronous lines followed by the
single error line `y`, so the error line can only appear after every
synchronous line; and the canonical complete schedule displays exactly the
synchronous lines followed by exactly one error-kind line containing `y`. -/
theorem c5_amended_async_rejection (b : Behavior) (y : String)
    (hkinds : ∀ m ∈ b.syncEmits, m.1 ≠ EKind.error)
    (hthrow : b.syncThrow = none)
    (hasync : b.asyncEmits = [(EKind.error, [JSVal.str y])]) :
    (∀ acts s, NoUserRun acts → exec (runStep b init) acts = some s → ranOf s 0 ≤ 1 →
        s.display.map Prod.snd <+: syncLines b ++ [errLine y]
        ∧ (errLine y ∈ s.display.map Prod.snd →
            s.display.map Prod.snd = syncLines b ++ [errLine y]))
    ∧ (∃ sF, exec (runStep b init) (c5CompleteSched b) = some sF
        ∧ sF.display.map Prod.snd = syncLines b ++ [errLine y]
        ∧ (sF.display.map Prod.snd).countP (fun l => l.kind == "error") = 1
        ∧ ranOf sF 0 = 1) := by
  have hcount : (syncLines b).countP (fun l => l.kind == "error") = 0 := by
    refine List.countP_eq_zero.mpr ?_
    intro l hl
    simp only [syncLines] at hl
    obtain ⟨m, hm, rfl⟩ := List.mem_map.mp hl
    intro hcon
    exact hkinds m hm (EKind.eq_error_of_tag (by simpa [emitLine] using hcon))
  constructor
  · intro acts s hacts h hr
    have hinv : C5Inv b s :=
      exec_preserve_noRun (fun s a s' ha h hp => c5Inv_step hthrow ha h hp) acts hacts _ s h
        (c5Inv_base b)
    obtain ⟨h1, h2, h3, k, hk, hk0, hbr⟩ := hinv
    rw [ranOf_singleton hk hk0] at hr
    have hd_not : errLine y ∉ syncLines b := errLine_not_mem_syncLines hkinds
    rcases hbr with ⟨hr0, hd, ho, hp⟩ | ⟨hr1, j, hj, hline, hpa⟩ | hge
    · rw [hd]
      exact ⟨⟨syncLines b ++ [errLine y], rfl⟩, by simp⟩
    · have hpre0 : s.display.map Prod.snd <+:
          s.display.map Prod.snd ++ s.outMsgs.map (fun p => emitLine p.2) :=
        List.prefix_append _ _
      rw [hline] at hpre0
      have hemit : emitLine (EKind.error, [JSVal.str y]) = errLine y := rfl
      have hpre : s.display.map Prod.snd <+: syncLines b ++ [errLine y] := by
        rw [hasync] at hpre0
        cases j with
        | zero =>
            simp only [List.take_zero, List.map_nil, List.append_nil] at hpre0
            exact hpre0.trans (List.prefix_append _ _)
        | succ n =>
            simpa [hemit] using hpre0
      exact ⟨hpre, fun hm => prefix_snoc_eq hpre hd_not hm⟩
    · omega
  · obtain ⟨se, sth, ae⟩ := b
    dsimp only at hkinds hthrow hasync hcount
    subst hthrow
    subst hasync
    refine ⟨⟨se.map (fun m => ((0 : Nat), emitLine m)) ++ [((0 : Nat), errLine y)],
      some 0, [0], 1, [⟨0, true, 1, []⟩], 0, [], [], [],
      ⟨se, none, [(EKind.error, [JSVal.str y])]⟩, [0, 0]⟩, ?_, ?_, ?_, rfl⟩
    · have hA : exec (runStep ⟨se, none, [(EKind.error, [JSVal.str y])]⟩ init)
          [Act.timerFire, Act.deliverRun 0, Act.ctxLoad 0, Act.deliverRun 0] =
          some ⟨[], some 0, [0], 1, [⟨0, true, 1, [(EKind.error, [JSVal.str y])]⟩], 0, [], [],
            se.map (fun m => ((0 : Nat), m)),
            ⟨se, none, [(EKind.error, [JSVal.str y])]⟩, [0, 0]⟩ := rfl
      have hB : exec (⟨[], some 0, [0], 1, [⟨0, true, 1, [(EKind.error, [JSVal.str y])]⟩], 0,
            [], [], se.map (fun m => ((0 : Nat), m)),
            ⟨se, none, [(EKind.error, [JSVal.str y])]⟩, [0, 0]⟩ : St)
          (List.replicate se.length Act.deliverOut) =
          some ⟨se.map (fun m => ((0 : Nat), emitLine m)), some 0, [0], 1,
            [⟨0, true, 1, [(EKind.error, [JSVal.str y])]⟩], 0, [], [], [],
            ⟨se, none, [(EKind.error, [JSVal.str y])]⟩, [0, 0]⟩ := by
        rw [exec_replicate_deliverOut se.length _ (by simp)]
        rw [show se.length = (se.map (fun m => ((0 : Nat), m))).length from
          (List.length_map _ _).symm]
        rw [List.take_length, List.drop_length]
        simp [List.map_map]
      have hC : exec (⟨se.map (fun m => ((0 : Nat), emitLine m)), some 0, [0], 1,
            [⟨0, true, 1, [(EKind.error, [JSVal.str y])]⟩], 0, [], [], [],
            ⟨se, none, [(EKind.error, [JSVal.str y])]⟩, [0, 0]⟩ : St)
          [Act.asyncFire 0, Act.deliverOut] =
          some ⟨se.map (fun m => ((0 : Nat), emitLine m)) ++ [((0 : Nat), errLine y)],
            some 0, [0], 1, [⟨0, true, 1, []⟩], 0, [], [], [],
            ⟨se, none, [(EKind.error, [JSVal.str y])]⟩, [0, 0]⟩ := rfl
      show exec _ (c5CompleteSched _) = _
      simp only [c5CompleteSched]
      rw [exec_append, exec_append, hA]
      simp only [Option.some_bind]
      rw [hB]
      simp only [Option.some_bind]
      exact hC
    · simp [syncLines, List.map_map]
    · dsimp only
      rw [show (se.map (fun m => ((0 : Nat), emitLine m)) ++ [((0 : Nat), errLine y)]).map
            Prod.snd = se.map emitLine ++ [errLine y] by simp [List.map_map]]
      rw [List.countP_append]
      rw [show (se.map emitLine : List Line) = syncLines ⟨se, none,
        [(EKind.error, [JSVal.str y])]⟩ from rfl]
      rw [hcount]
      rfl

/-- Witness for C5's amended theorem at the behavior of
`console.log('s')` plus an unhandled rejection with reason `y`, run on the
canonical complete schedule. -/
theorem c5_amended_async_rejection_witness :
    ∃ sF, exec (runStep c5CexBehavior init) (c5CompleteSched c5CexBehavior) = some sF
      ∧ sF.display.map Prod.snd = syncLines c5CexBehavior ++ [errLine "y"]
      ∧ (sF.display.map Prod.snd).countP (fun l => l.kind == "error") = 1
      ∧ ranOf sF 0 = 1 :=
  (c5_amended_async_rejection c5CexBehavior "y"
    (by
      intro m hm
      rw [List.mem_singleton.mp hm]
      decide)
    rfl rfl).2

end RTConsole

